import Mathlib

/-!
# karydia: the config reconciler (`pkg/controller/config_reconciler.go`)

A shallow embedding of `ConfigReconciler` and of the library functions it calls,
followed by theorems about the reconcile handler, the config propagation to the
dependent controllers, the per-item worker step and the informer event handlers.

The reconciler talks to four collaborators: the lister (informer cache), the
clientset, the dependent controllers and the work queue.  Each of them is a
stateful object outside the reconciler; here they are state transformers on a
world of an arbitrary type `ω`, and every call made to one of them is appended,
with its arguments and what it returned, to a call trace.  Log output is not
modelled.
-/

namespace Karydia

/-! ## Data model -/

/-- Modelled from the spec: the declaration of `v1alpha1.KarydiaConfigSpec` is not part of
`config_reconciler.go`.  The fields are the ones `ConfigReconciler.UpdateConfig` reads from
`karydiaConfig.Spec`; the reconciler compares two specs with `reflect.DeepEqual`, which on a
struct of scalar fields is equality of all fields. -/
structure KarydiaConfigSpec where
  Enforcement : Bool
  AutomountServiceAccountToken : String
  SeccompProfile : String
  NetworkPolicy : String
  PodSecurityContext : String
deriving DecidableEq, Repr

/-- Modelled from the spec: the declaration of `v1alpha1.KarydiaConfig` is not part of
`config_reconciler.go`.  `Namespace`, `Name` and `ResourceVersion` are the fields of the
embedded `metav1.ObjectMeta` that the reconciler and `cache.MetaNamespaceKeyFunc` read. -/
structure KarydiaConfig where
  Namespace : String
  Name : String
  ResourceVersion : String
  Spec : KarydiaConfigSpec
deriving DecidableEq, Repr

/-- A non-nil Go `error` value.  `notFound` says whether the error is an API status error
whose reason is `NotFound`, which is all that `errors.IsNotFound` looks at.  The Go type
`error` itself is `Option GoError`, with `nil` as `none`. -/
structure GoError where
  msg : String
  notFound : Bool
deriving DecidableEq, Repr

/-- The function `errors.IsNotFound` of `k8s.io/apimachinery/pkg/api/errors`. -/
def errors.IsNotFound (err : GoError) : Bool := err.notFound

/-- A value of type `interface{}` taken off the work queue: a Go string, or a value of any
other dynamic type (told apart by a tag). -/
inductive Item where
  | str (s : String)
  | other (tag : Nat)
deriving DecidableEq, Repr

/-- A value of type `interface{}` handed to the informer event handlers. -/
inductive Object where
  /-- A `*v1alpha1.KarydiaConfig`. -/
  | karydiaConfig (c : KarydiaConfig)
  /-- A `cache.ExplicitKey`. -/
  | explicitKey (k : String)
  /-- A `cache.DeletedFinalStateUnknown` tombstone, which has no object metadata. -/
  | deletedFinalStateUnknown (key : String) (obj : KarydiaConfig)
deriving DecidableEq, Repr

/-- What the lister returns: `(config, nil)` or `(nil, err)`. -/
inductive GetResult where
  | ok (config : KarydiaConfig)
  | error (err : GoError)
deriving DecidableEq, Repr

/-- One call made by the reconciler to a collaborator, with what the call returned. -/
inductive Call where
  | listerGet (name : String) (ret : GetResult)
  | create (config : KarydiaConfig) (ret : Option GoError)
  /-- The call `controllers[i].UpdateConfig(config)`. -/
  | updateConfig (i : Nat) (config : KarydiaConfig) (ret : Option GoError)
  | queueAdd (item : Item)
  | queueGet (item : Item) (shutdown : Bool)
  | queueDone (item : Item)
  | queueForget (item : Item)
  | queueAddRateLimited (item : Item)
deriving DecidableEq, Repr

/-- Whether a call is a work queue operation. -/
def Call.isQueueOp : Call → Bool
  | .queueAdd _ => true
  | .queueGet _ _ => true
  | .queueDone _ => true
  | .queueForget _ => true
  | .queueAddRateLimited _ => true
  | _ => false

/-! ## Collaborators -/

/-- The interface `ControllerInterface` as the reconciler uses it: one method `UpdateConfig`. -/
structure ControllerInterface (ω : Type) where
  UpdateConfig : KarydiaConfig → ω → Option GoError × ω

/-- The lister `v1alpha13.KarydiaConfigLister`, of which only `Get` is called. -/
structure KarydiaConfigLister (ω : Type) where
  Get : String → ω → GetResult × ω

/-- The client `clientset.KarydiaV1alpha1().KarydiaConfigs()`, of which only `Create` is
called; the object `Create` returns is discarded by the caller, only the error is kept. -/
structure KarydiaConfigInterface (ω : Type) where
  Create : KarydiaConfig → ω → Option GoError × ω

/-- The work queue `workqueue.RateLimitingInterface`, with the methods the reconciler calls. -/
structure RateLimitingInterface (ω : Type) where
  Add : Item → ω → ω
  Get : ω → (Item × Bool) × ω
  Done : Item → ω → ω
  Forget : Item → ω → ω
  AddRateLimited : Item → ω → ω

/-- The struct `ConfigReconciler`.  `config` is the only field the methods assign to.  `world`
is the current state of everything outside the reconciler and `trace` the calls made so far. -/
structure ConfigReconciler (ω : Type) where
  config : KarydiaConfig
  controllers : List (ControllerInterface ω)
  clientset : KarydiaConfigInterface ω
  lister : KarydiaConfigLister ω
  workqueue : RateLimitingInterface ω
  world : ω
  trace : List Call

/-! ## Library functions -/

/-- The function `strings.Split(s, "/")` on the characters of `s`: the pieces between the
slashes, always at least one piece. -/
def splitSlash : List Char → List (List Char)
  | [] => [[]]
  | c :: cs =>
    if c = '/' then [] :: splitSlash cs
    else
      match splitSlash cs with
      | [] => [[c]]
      | p :: ps => (c :: p) :: ps

/-- The double quote character that the verb `%q` of `fmt.Errorf` puts around a string. -/
def doubleQuote : String := String.singleton (Char.ofNat 34)

/-- The function `cache.SplitMetaNamespaceKey`: a key with no slash is a name, a key with one
slash is namespace and name, anything else is an error.  The message of the error is the one
of `fmt.Errorf("unexpected key format: %q", key)` for a key that `%q` has nothing to escape
in; the reconciler does not read the message. -/
def SplitMetaNamespaceKey (key : String) : Except GoError (String × String) :=
  match splitSlash key.data with
  | [name] => .ok ("", String.mk name)
  | [ns, name] => .ok (String.mk ns, String.mk name)
  | _ => .error ⟨"unexpected key format: " ++ doubleQuote ++ key ++ doubleQuote, false⟩

/-- The function `cache.MetaNamespaceKeyFunc`: an explicit key is returned as it is, an object
with metadata gives `namespace/name`, or `name` alone when the namespace is empty, and an
object without metadata is an error. -/
def MetaNamespaceKeyFunc : Object → Except GoError String
  | .explicitKey k => .ok k
  | .karydiaConfig c =>
    if c.Namespace.length > 0 then .ok (c.Namespace ++ "/" ++ c.Name) else .ok c.Name
  | .deletedFinalStateUnknown _ _ => .error ⟨"object has no meta: object does not implement the Object interfaces", false⟩

/-! ## The reconciler -/

variable {ω : Type}

/-- The loop of `ConfigReconciler.UpdateConfig` over `reconciler.controllers`, from index `i`
on: each controller is called with the config, and the first error ends the loop. -/
def updateControllers (karydiaConfig : KarydiaConfig) :
    List (ControllerInterface ω) → Nat → ω → List Call → Option GoError × ω × List Call
  | [], _, w, tr => (none, w, tr)
  | controller :: rest, i, w, tr =>
    let out := controller.UpdateConfig karydiaConfig w
    match out.1 with
    | some err => (some err, out.2, tr ++ [Call.updateConfig i karydiaConfig (some err)])
    | none =>
      updateControllers karydiaConfig rest (i + 1) out.2
        (tr ++ [Call.updateConfig i karydiaConfig none])

/-- The method `ConfigReconciler.UpdateConfig`: assign the config, then tell the controllers. -/
def UpdateConfig (karydiaConfig : KarydiaConfig) (r : ConfigReconciler ω) :
    Option GoError × ConfigReconciler ω :=
  let r1 := { r with config := karydiaConfig }
  let out := updateControllers karydiaConfig r1.controllers 0 r1.world r1.trace
  (out.1, { r1 with world := out.2.1, trace := out.2.2 })

/-- The method `ConfigReconciler.reconcileIsNeeded`. -/
def reconcileIsNeeded (r : ConfigReconciler ω) (desiredConfig : KarydiaConfig) : Bool :=
  let actualConfig := r.config
  if desiredConfig.Spec = actualConfig.Spec then false else true

/-- The method `ConfigReconciler.createConfig`; `DeepCopy` gives an equal value. -/
def createConfig (r : ConfigReconciler ω) : Option GoError × ConfigReconciler ω :=
  let desiredConfig := r.config
  let out := r.clientset.Create desiredConfig r.world
  (out.1, { r with world := out.2, trace := r.trace ++ [Call.create desiredConfig out.1] })

/-- The method `ConfigReconciler.syncConfigHandler`. -/
def syncConfigHandler (key : String) (r : ConfigReconciler ω) :
    Option GoError × ConfigReconciler ω :=
  match SplitMetaNamespaceKey key with
  | .error _ => (none, r)
  | .ok (_, configName) =>
    if r.config.Name = "" then (none, r)
    else if configName = r.config.Name then
      let out := r.lister.Get configName r.world
      let r1 := { r with world := out.2, trace := r.trace ++ [Call.listerGet configName out.1] }
      match out.1 with
      | .error err =>
        if errors.IsNotFound err then
          match createConfig r1 with
          | (some err2, r2) => (some err2, r2)
          | (none, r2) => (none, r2)
        else (some err, r1)
      | .ok config =>
        if reconcileIsNeeded r1 config then
          match UpdateConfig config r1 with
          | (some err2, r2) => (some err2, r2)
          | (none, r2) => (none, r2)
        else (none, r1)
    else (none, r)

/-- The method `ConfigReconciler.enqueueConfig`. -/
def enqueueConfig (obj : Object) (r : ConfigReconciler ω) : ConfigReconciler ω :=
  match MetaNamespaceKeyFunc obj with
  | .error _ => r
  | .ok key =>
    { r with world := r.workqueue.Add (Item.str key) r.world,
             trace := r.trace ++ [Call.queueAdd (Item.str key)] }

/-- The `UpdateFunc` that `NewConfigReconciler` registers.  The two type assertions panic
when an argument is not a `*v1alpha1.KarydiaConfig`; a panic is `none`. -/
def UpdateFunc (old new : Object) (r : ConfigReconciler ω) : Option (ConfigReconciler ω) :=
  match new, old with
  | .karydiaConfig newConfig, .karydiaConfig oldConfig =>
    if newConfig.ResourceVersion = oldConfig.ResourceVersion then some r
    else some (enqueueConfig new r)
  | _, _ => none

/-- The `DeleteFunc` that `NewConfigReconciler` registers. -/
def DeleteFunc (obj : Object) (r : ConfigReconciler ω) : ConfigReconciler ω :=
  enqueueConfig obj r

/-- The call `reconciler.workqueue.Forget(obj)`. -/
def queueForget (obj : Item) (r : ConfigReconciler ω) : ConfigReconciler ω :=
  { r with world := r.workqueue.Forget obj r.world, trace := r.trace ++ [Call.queueForget obj] }

/-- The call `reconciler.workqueue.AddRateLimited(key)`. -/
def queueAddRateLimited (obj : Item) (r : ConfigReconciler ω) : ConfigReconciler ω :=
  { r with world := r.workqueue.AddRateLimited obj r.world,
           trace := r.trace ++ [Call.queueAddRateLimited obj] }

/-- The call `reconciler.workqueue.Done(obj)`. -/
def queueDone (obj : Item) (r : ConfigReconciler ω) : ConfigReconciler ω :=
  { r with world := r.workqueue.Done obj r.world, trace := r.trace ++ [Call.queueDone obj] }

/-- The single quote character of the message built by `fmt.Errorf`. -/
def quote : String := String.singleton (Char.ofNat 39)

/-- The function literal inside `processNextConfigWorkItem`, with its deferred `Done`. -/
def processItem (obj : Item) (r : ConfigReconciler ω) : Option GoError × ConfigReconciler ω :=
  let body : Option GoError × ConfigReconciler ω :=
    match obj with
    | .other _ => (none, queueForget obj r)
    | .str key =>
      match syncConfigHandler key r with
      | (some err, r1) =>
        (some ⟨"error syncing " ++ quote ++ key ++ quote ++ ": " ++ err.msg ++ ", requeuing", false⟩,
          queueAddRateLimited (Item.str key) r1)
      | (none, r1) => (none, queueForget obj r1)
  (body.1, queueDone obj body.2)

/-- The call `reconciler.workqueue.Get()`: the item and the shutdown flag it returns, and the
reconciler after the call. -/
def queueGet (r : ConfigReconciler ω) : (Item × Bool) × ConfigReconciler ω :=
  let out := r.workqueue.Get r.world
  (out.1, { r with world := out.2, trace := r.trace ++ [Call.queueGet out.1.1 out.1.2] })

/-- The method `ConfigReconciler.processNextConfigWorkItem`. -/
def processNextConfigWorkItem (r : ConfigReconciler ω) : Bool × ConfigReconciler ω :=
  let got := queueGet r
  let obj := got.1.1
  let shutdown := got.1.2
  if shutdown then (false, got.2)
  else
    match processItem obj got.2 with
    | (some _, r2) => (true, r2)
    | (none, r2) => (true, r2)

/-- The calls made between an earlier state `r` and a later state `r2` of the reconciler. -/
def newCalls (r r2 : ConfigReconciler ω) : List Call :=
  r2.trace.drop r.trace.length

/-- What each controller of the list returns when the controllers are called one after the
other, in list order, with the config `c`, the first of them in world `w`.  Controller `i` is
the first to fail when entry `i` is an error and the entries before it are `none`; the
entries after the first error belong to calls that `UpdateConfig` does not make. -/
def controllerResults (c : KarydiaConfig) :
    List (ControllerInterface ω) → ω → List (Option GoError)
  | [], _ => []
  | controller :: rest, w =>
    (controller.UpdateConfig c w).1 :: controllerResults c rest (controller.UpdateConfig c w).2

/-- The world after the first `k` controllers of the list have been called one after the
other, in list order, with the config `c`, the first of them in world `w`. -/
def controllerWorld (c : KarydiaConfig) : List (ControllerInterface ω) → Nat → ω → ω
  | [], _, w => w
  | _ :: _, 0, w => w
  | controller :: rest, k + 1, w => controllerWorld c rest k (controller.UpdateConfig c w).2

/-! ## Concrete reconcilers

A small world for evaluating the definitions: what the dependents, the store and the work
queue have been told so far. -/

/-- The world of the examples. -/
structure ExampleWorld where
  /-- The number of `UpdateConfig` calls the dependent controllers have received. -/
  updates : Nat
  /-- The objects created in the store. -/
  created : List KarydiaConfig
  /-- The number of `Get` calls the queue has answered. -/
  gets : Nat
  /-- The items given to `Add`. -/
  added : List Item
  /-- The items given to `Done`. -/
  done : List Item
  /-- The items given to `Forget`. -/
  forgotten : List Item
  /-- The items given to `AddRateLimited`. -/
  rateLimited : List Item
deriving DecidableEq, Repr

/-- The world in which nothing has happened yet. -/
def world0 : ExampleWorld := ⟨0, [], 0, [], [], [], []⟩

/-- The spec of the config held in memory in the examples. -/
def specMemory : KarydiaConfigSpec :=
  ⟨false, "changeDefault", "runtime/default", "level1", "nobody"⟩

/-- A spec that differs from `specMemory`. -/
def specObserved : KarydiaConfigSpec :=
  ⟨true, "changeAll", "unconfined", "level2", "root"⟩

/-- The in-memory config of the examples, with the name `global`. -/
def cfgMemory : KarydiaConfig := ⟨"", "global", "1", specMemory⟩

/-- An observed config whose spec differs from the one in memory. -/
def cfgObserved : KarydiaConfig := ⟨"", "global", "2", specObserved⟩

/-- An observed config with the spec of the one in memory and other metadata. -/
def cfgSameSpec : KarydiaConfig := ⟨"kube-system", "renamed", "7", specMemory⟩

/-- A dependent controller that always succeeds. -/
def okController : ControllerInterface ExampleWorld :=
  ⟨fun _ w => (none, { w with updates := w.updates + 1 })⟩

/-- The error of `flakyController`. -/
def errNotReady : GoError := ⟨"webhook not ready", false⟩

/-- A dependent controller with a transient failure: the very first `UpdateConfig` call that
reaches any dependent fails, later calls succeed. -/
def flakyController : ControllerInterface ExampleWorld :=
  ⟨fun _ w =>
    if w.updates = 0 then (some errNotReady, { w with updates := w.updates + 1 })
    else (none, { w with updates := w.updates + 1 })⟩

/-- The error of `brokenController`. -/
def errBroken : GoError := ⟨"cannot apply config", false⟩

/-- A dependent controller that always fails. -/
def brokenController : ControllerInterface ExampleWorld :=
  ⟨fun _ w => (some errBroken, { w with updates := w.updates + 1 })⟩

/-- A not-found error of the lister. -/
def errNotFound : GoError := ⟨"karydiaconfig global not found", true⟩

/-- A lister error that is not a not-found error. -/
def errTimeout : GoError := ⟨"timeout", false⟩

/-- An error of `Create`. -/
def errForbidden : GoError := ⟨"forbidden", false⟩

/-- A work queue whose `Get` returns the given item and shutdown flag, and which records in
the world what it is told. -/
def fixedQueue (item : Item) (shutdown : Bool) : RateLimitingInterface ExampleWorld :=
  { Add := fun x w => { w with added := w.added ++ [x] },
    Get := fun w => ((item, shutdown), { w with gets := w.gets + 1 }),
    Done := fun x w => { w with done := w.done ++ [x] },
    Forget := fun x w => { w with forgotten := w.forgotten ++ [x] },
    AddRateLimited := fun x w => { w with rateLimited := w.rateLimited ++ [x] } }

/-- A client whose `Create` returns the given error, and stores the object when the error is
nil. -/
def fixedClient (create : Option GoError) : KarydiaConfigInterface ExampleWorld :=
  ⟨fun c w =>
    match create with
    | none => (none, { w with created := w.created ++ [c] })
    | some err => (some err, w)⟩

/-- A reconciler holding `cfgMemory`, with the given dependents, the given answers of the
lister and of `Create`, and the given next queue item. -/
def exampleReconciler (controllers : List (ControllerInterface ExampleWorld))
    (get : GetResult) (create : Option GoError) (item : Item) (shutdown : Bool) :
    ConfigReconciler ExampleWorld :=
  { config := cfgMemory, controllers := controllers, clientset := fixedClient create,
    lister := ⟨fun _ w => (get, w)⟩, workqueue := fixedQueue item shutdown,
    world := world0, trace := [] }

/-- The store holds a config with a different spec; of the two dependents the first one fails
on its first call. -/
def rDrift : ConfigReconciler ExampleWorld :=
  exampleReconciler [flakyController, okController] (.ok cfgObserved) none (.str "global") false

/-- The store holds a config with a different spec and both dependents succeed. -/
def rDriftOk : ConfigReconciler ExampleWorld :=
  exampleReconciler [okController, okController] (.ok cfgObserved) none (.str "global") false

/-- The store holds a config with a different spec; of the three dependents the second one
always fails. -/
def rDriftBroken : ConfigReconciler ExampleWorld :=
  exampleReconciler [okController, brokenController, okController] (.ok cfgObserved) none
    (.str "global") false

/-- The store holds a config with the spec that is in memory. -/
def rSame : ConfigReconciler ExampleWorld :=
  exampleReconciler [flakyController, okController] (.ok cfgSameSpec) none (.str "global") false

/-- The config is missing from the store and `Create` succeeds. -/
def rMissing : ConfigReconciler ExampleWorld :=
  exampleReconciler [flakyController, okController] (.error errNotFound) none (.str "global") false

/-- The config is missing from the store and `Create` fails. -/
def rMissingCreateFails : ConfigReconciler ExampleWorld :=
  exampleReconciler [okController] (.error errNotFound) (some errForbidden) (.str "global") false

/-- The lister fails with an error other than not-found. -/
def rListerFails : ConfigReconciler ExampleWorld :=
  exampleReconciler [okController] (.error errTimeout) none (.str "global") false

/-- The next queue item is not a string. -/
def rBadItem : ConfigReconciler ExampleWorld :=
  exampleReconciler [okController] (.ok cfgObserved) none (.other 42) false

/-- The queue is shutting down. -/
def rShutdown : ConfigReconciler ExampleWorld :=
  exampleReconciler [okController] (.ok cfgObserved) none (.str "global") true

/-- The reconciler `rDrift` after one handler run on the key `global`, in which the first
dependent failed: the state in which the retry of the key runs. -/
def rDriftRetry : ConfigReconciler ExampleWorld := (syncConfigHandler "global" rDrift).2

/-! ## The controller loop -/

theorem updateControllers_ok (c : KarydiaConfig) (cs : List (ControllerInterface ω)) (i : Nat)
    (w : ω) (tr : List Call) (h : ∀ o ∈ controllerResults c cs w, o = none) :
    (updateControllers c cs i w tr).1 = none ∧
    (updateControllers c cs i w tr).2.2 =
      tr ++ (List.range' i cs.length).map (fun j => Call.updateConfig j c none) := by
  induction cs generalizing i w tr with
  | nil => simp [updateControllers]
  | cons a rest ih =>
    have h0 : (a.UpdateConfig c w).1 = none := h _ (by simp [controllerResults])
    have hr : ∀ o ∈ controllerResults c rest (a.UpdateConfig c w).2, o = none := by
      intro o ho
      exact h o (by simp [controllerResults, ho])
    have := ih (i + 1) (a.UpdateConfig c w).2 (tr ++ [Call.updateConfig i c none]) hr
    simp only [updateControllers, h0]
    refine ⟨this.1, ?_⟩
    rw [this.2]
    simp [List.range'_succ]

theorem updateControllers_fail (c : KarydiaConfig) (cs : List (ControllerInterface ω)) (i : Nat)
    (w : ω) (tr : List Call) (k : Nat) (e : GoError)
    (hk : (controllerResults c cs w)[k]? = some (some e))
    (hlt : ∀ j : Nat, j < k → (controllerResults c cs w)[j]? = some none) :
    (updateControllers c cs i w tr).1 = some e ∧
    (updateControllers c cs i w tr).2.2 =
      tr ++ (List.range' i k).map (fun j => Call.updateConfig j c none)
        ++ [Call.updateConfig (i + k) c (some e)] := by
  induction cs generalizing i w tr k with
  | nil => simp [controllerResults] at hk
  | cons a rest ih =>
    cases k with
    | zero =>
      have h0 : (a.UpdateConfig c w).1 = some e := by simpa [controllerResults] using hk
      simp [updateControllers, h0]
    | succ k =>
      have h0 : (a.UpdateConfig c w).1 = none := by
        have := hlt 0 (Nat.succ_pos k)
        simpa [controllerResults] using this
      have hk2 : (controllerResults c rest (a.UpdateConfig c w).2)[k]? = some (some e) := by
        simpa [controllerResults] using hk
      have hlt2 : ∀ j : Nat, j < k →
          (controllerResults c rest (a.UpdateConfig c w).2)[j]? = some none := by
        intro j hj
        have := hlt (j + 1) (Nat.succ_lt_succ hj)
        simpa [controllerResults] using this
      have := ih (i + 1) (a.UpdateConfig c w).2 (tr ++ [Call.updateConfig i c none]) k hk2 hlt2
      simp only [updateControllers, h0]
      refine ⟨this.1, ?_⟩
      rw [this.2]
      simp [List.range'_succ, Nat.add_assoc, Nat.add_comm 1 k]

/-- When no controller fails, the loop leaves the world that the calls to all of them give. -/
theorem updateControllers_ok_world (c : KarydiaConfig) (cs : List (ControllerInterface ω))
    (i : Nat) (w : ω) (tr : List Call) (h : ∀ o ∈ controllerResults c cs w, o = none) :
    (updateControllers c cs i w tr).2.1 = controllerWorld c cs cs.length w := by
  induction cs generalizing i w tr with
  | nil => simp [updateControllers, controllerWorld]
  | cons a rest ih =>
    have h0 : (a.UpdateConfig c w).1 = none := h _ (by simp [controllerResults])
    have hr : ∀ o ∈ controllerResults c rest (a.UpdateConfig c w).2, o = none := by
      intro o ho
      exact h o (by simp [controllerResults, ho])
    simp only [updateControllers, h0, List.length_cons, controllerWorld]
    exact ih (i + 1) (a.UpdateConfig c w).2 (tr ++ [Call.updateConfig i c none]) hr

/-- When controller `k` is the first to fail, the loop leaves the world that the calls to the
controllers `0..k` give. -/
theorem updateControllers_fail_world (c : KarydiaConfig) (cs : List (ControllerInterface ω))
    (i : Nat) (w : ω) (tr : List Call) (k : Nat) (e : GoError)
    (hk : (controllerResults c cs w)[k]? = some (some e))
    (hlt : ∀ j : Nat, j < k → (controllerResults c cs w)[j]? = some none) :
    (updateControllers c cs i w tr).2.1 = controllerWorld c cs (k + 1) w := by
  induction cs generalizing i w tr k with
  | nil => simp [controllerResults] at hk
  | cons a rest ih =>
    cases k with
    | zero =>
      have h0 : (a.UpdateConfig c w).1 = some e := by simpa [controllerResults] using hk
      cases rest <;> simp [updateControllers, h0, controllerWorld]
    | succ k =>
      have h0 : (a.UpdateConfig c w).1 = none := by
        have := hlt 0 (Nat.succ_pos k)
        simpa [controllerResults] using this
      have hk2 : (controllerResults c rest (a.UpdateConfig c w).2)[k]? = some (some e) := by
        simpa [controllerResults] using hk
      have hlt2 : ∀ j : Nat, j < k →
          (controllerResults c rest (a.UpdateConfig c w).2)[j]? = some none := by
        intro j hj
        have := hlt (j + 1) (Nat.succ_lt_succ hj)
        simpa [controllerResults] using this
      simp only [updateControllers, h0, controllerWorld]
      exact ih (i + 1) (a.UpdateConfig c w).2 (tr ++ [Call.updateConfig i c none]) k hk2 hlt2

theorem exists_first_error {α : Type} (l : List (Option α)) (h : ∃ o ∈ l, o ≠ none) :
    ∃ (k : Nat) (e : α), l[k]? = some (some e) ∧ ∀ j : Nat, j < k → l[j]? = some none := by
  induction l with
  | nil => simp at h
  | cons a rest ih =>
    cases a with
    | some e =>
      refine ⟨0, e, by simp, ?_⟩
      intro j hj
      omega
    | none =>
      have h2 : ∃ o ∈ rest, o ≠ none := by
        obtain ⟨o, ho, hne⟩ := h
        simp at ho
        rcases ho with rfl | ho
        · exact absurd rfl hne
        · exact ⟨o, ho, hne⟩
      obtain ⟨k, e, hk, hlt⟩ := ih h2
      refine ⟨k + 1, e, by simpa using hk, ?_⟩
      intro j hj
      cases j with
      | zero => simp
      | succ j => simpa using hlt j (by omega)

/-- The loop only appends `UpdateConfig` calls with the given config to the trace, and when
it returns an error, a call that returned this error is among them. -/
theorem updateControllers_trace (c : KarydiaConfig) (cs : List (ControllerInterface ω)) (i : Nat)
    (w : ω) (tr : List Call) :
    ∃ calls : List Call, (updateControllers c cs i w tr).2.2 = tr ++ calls ∧
      (∀ x ∈ calls, ∃ j ret, x = Call.updateConfig j c ret) ∧
      (∀ e, (updateControllers c cs i w tr).1 = some e →
        ∃ j, Call.updateConfig j c (some e) ∈ calls) := by
  induction cs generalizing i w tr with
  | nil => exact ⟨[], by simp [updateControllers]⟩
  | cons a rest ih =>
    cases h0 : (a.UpdateConfig c w).1 with
    | some err =>
      refine ⟨[Call.updateConfig i c (some err)], by simp [updateControllers, h0], ?_, ?_⟩
      · intro x hx
        exact ⟨i, some err, by simpa using hx⟩
      · intro e he
        simp [updateControllers, h0] at he
        exact ⟨i, by simp [he]⟩
    | none =>
      obtain ⟨calls, h1, h2, h3⟩ :=
        ih (i + 1) (a.UpdateConfig c w).2 (tr ++ [Call.updateConfig i c none])
      refine ⟨Call.updateConfig i c none :: calls, ?_, ?_, ?_⟩
      · simp only [updateControllers, h0]
        rw [h1]
        simp
      · intro x hx
        simp at hx
        rcases hx with rfl | hx
        · exact ⟨i, none, rfl⟩
        · exact h2 x hx
      · intro e he
        simp only [updateControllers, h0] at he
        obtain ⟨j, hj⟩ := h3 e he
        exact ⟨j, by simp [hj]⟩

/-- The loop returns nil exactly when no controller fails. -/
theorem updateControllers_none_iff (c : KarydiaConfig) (cs : List (ControllerInterface ω))
    (i : Nat) (w : ω) (tr : List Call) :
    (updateControllers c cs i w tr).1 = none ↔ ∀ o ∈ controllerResults c cs w, o = none := by
  constructor
  · intro h
    by_contra hall
    push_neg at hall
    obtain ⟨k, e, hk, hlt⟩ := exists_first_error _ hall
    have := (updateControllers_fail c cs i w tr k e hk hlt).1
    rw [h] at this
    cases this
  · intro h
    exact (updateControllers_ok c cs i w tr h).1

/-! ## The config propagation -/

/-- C1: `ConfigReconciler.UpdateConfig(c)` calls `UpdateConfig(c)` on the dependents in list
order, each at most once.  If no dependent fails, the calls made are exactly one call to each
dependent, in order, and the result is nil.  If dependent `i` is the first to fail, with error
`e`, the calls made are exactly one call to each of the dependents `0..i`, in order, none to a
later dependent, and the result is `e`.  In both cases the world is left as these calls,
made one after the other, leave it. -/
theorem UpdateConfig_calls_dependents_in_order (c : KarydiaConfig) (r : ConfigReconciler ω) :
    ((∀ o ∈ controllerResults c r.controllers r.world, o = none) →
      (UpdateConfig c r).1 = none ∧
      (UpdateConfig c r).2.trace =
        r.trace ++ (List.range r.controllers.length).map (fun j => Call.updateConfig j c none) ∧
      (UpdateConfig c r).2.world =
        controllerWorld c r.controllers r.controllers.length r.world) ∧
    (∀ (i : Nat) (e : GoError),
      (controllerResults c r.controllers r.world)[i]? = some (some e) →
      (∀ j : Nat, j < i → (controllerResults c r.controllers r.world)[j]? = some none) →
      (UpdateConfig c r).1 = some e ∧
      (UpdateConfig c r).2.trace =
        r.trace ++ (List.range i).map (fun j => Call.updateConfig j c none)
          ++ [Call.updateConfig i c (some e)] ∧
      (UpdateConfig c r).2.world = controllerWorld c r.controllers (i + 1) r.world) := by
  refine ⟨?_, ?_⟩
  · intro h
    have := updateControllers_ok c r.controllers 0 r.world r.trace h
    have hw := updateControllers_ok_world c r.controllers 0 r.world r.trace h
    refine ⟨?_, ?_, ?_⟩
    · simpa [UpdateConfig] using this.1
    · simpa [UpdateConfig, List.range_eq_range'] using this.2
    · simpa [UpdateConfig] using hw
  · intro i e hi hlt
    have := updateControllers_fail c r.controllers 0 r.world r.trace i e hi hlt
    have hw := updateControllers_fail_world c r.controllers 0 r.world r.trace i e hi hlt
    refine ⟨?_, ?_, ?_⟩
    · simpa [UpdateConfig] using this.1
    · simpa [UpdateConfig, List.range_eq_range'] using this.2
    · simpa [UpdateConfig] using hw

/-- Witness of C1: two dependents that succeed are both called, and when the second of three
dependents fails the third one is not called. -/
theorem UpdateConfig_calls_dependents_in_order_witness :
    ((UpdateConfig cfgObserved rDriftOk).1 = none ∧
      (UpdateConfig cfgObserved rDriftOk).2.trace =
        [] ++ (List.range 2).map (fun j => Call.updateConfig j cfgObserved none) ∧
      (UpdateConfig cfgObserved rDriftOk).2.world = { world0 with updates := 2 }) ∧
    ((UpdateConfig cfgObserved rDriftBroken).1 = some errBroken ∧
      (UpdateConfig cfgObserved rDriftBroken).2.trace =
        [] ++ (List.range 1).map (fun j => Call.updateConfig j cfgObserved none)
          ++ [Call.updateConfig 1 cfgObserved (some errBroken)] ∧
      (UpdateConfig cfgObserved rDriftBroken).2.world = { world0 with updates := 2 }) :=
  ⟨(UpdateConfig_calls_dependents_in_order cfgObserved rDriftOk).1 (by decide),
   (UpdateConfig_calls_dependents_in_order cfgObserved rDriftBroken).2 1 errBroken (by decide)
     (by decide)⟩

/-! ## The reconcile handler -/

/-- The handler on a key that names the target, up to the answer of the lister. -/
theorem syncConfigHandler_target (key ns name : String) (r : ConfigReconciler ω)
    (hkey : SplitMetaNamespaceKey key = .ok (ns, name))
    (hname : name = r.config.Name) (hne : r.config.Name ≠ "") :
    syncConfigHandler key r =
      (match (r.lister.Get name r.world).1 with
      | .error err =>
        if errors.IsNotFound err then
          createConfig { r with world := (r.lister.Get name r.world).2,
                                trace := r.trace ++ [Call.listerGet name (.error err)] }
        else (some err, { r with world := (r.lister.Get name r.world).2,
                                 trace := r.trace ++ [Call.listerGet name (.error err)] })
      | .ok config =>
        if config.Spec = r.config.Spec then
          (none, { r with world := (r.lister.Get name r.world).2,
                          trace := r.trace ++ [Call.listerGet name (.ok config)] })
        else UpdateConfig config { r with world := (r.lister.Get name r.world).2,
                                          trace := r.trace ++ [Call.listerGet name (.ok config)] }) := by
  subst hname
  simp only [syncConfigHandler, hkey, hne, if_false, if_true]
  cases hg : (r.lister.Get r.config.Name r.world).1 with
  | error err =>
    simp only []
    by_cases hnf : errors.IsNotFound err = true
    · simp only [hnf, if_true]
      rcases hc : createConfig _ with ⟨_ | e, r2⟩ <;> rfl
    · simp [hnf]
  | ok config =>
    simp only [reconcileIsNeeded]
    by_cases hs : config.Spec = r.config.Spec
    · simp [hs]
    · simp only [hs, if_false, if_true]
      rcases hc : UpdateConfig config _ with ⟨_ | e, r2⟩ <;> rfl

/-- C2, drift convergence: when the name component of the key is the non-empty target name
and the lister returns an observed config whose spec differs from the one in memory, one call
of the handler leaves the observed config in memory, whether or not a dependent fails, makes
no `Create` call and returns what `UpdateConfig` returns on the observed config.  After the
lister call, the dependents are called with the observed config in registration order: all of
them, once each, with result nil when none fails, and those up to and including the first one
that fails, with its error as the result, otherwise; the world is left as the lister call
followed by these calls leaves it. -/
theorem syncConfigHandler_drift (key ns name : String) (r : ConfigReconciler ω)
    (observed : KarydiaConfig) (w1 : ω)
    (hkey : SplitMetaNamespaceKey key = .ok (ns, name))
    (hname : name = r.config.Name) (hne : r.config.Name ≠ "")
    (hget : r.lister.Get name r.world = (GetResult.ok observed, w1))
    (hdiff : observed.Spec ≠ r.config.Spec) :
    (syncConfigHandler key r).2.config = observed ∧
    (∀ cfg ret, Call.create cfg ret ∉ newCalls r (syncConfigHandler key r).2) ∧
    syncConfigHandler key r =
      UpdateConfig observed
        { r with world := w1, trace := r.trace ++ [Call.listerGet name (.ok observed)] } ∧
    ((∀ o ∈ controllerResults observed r.controllers w1, o = none) →
      (syncConfigHandler key r).1 = none ∧
      newCalls r (syncConfigHandler key r).2 =
        Call.listerGet name (.ok observed) ::
          (List.range r.controllers.length).map (fun j => Call.updateConfig j observed none) ∧
      (syncConfigHandler key r).2.world =
        controllerWorld observed r.controllers r.controllers.length w1) ∧
    (∀ (i : Nat) (e : GoError),
      (controllerResults observed r.controllers w1)[i]? = some (some e) →
      (∀ j : Nat, j < i → (controllerResults observed r.controllers w1)[j]? = some none) →
      (syncConfigHandler key r).1 = some e ∧
      newCalls r (syncConfigHandler key r).2 =
        Call.listerGet name (.ok observed) ::
          ((List.range i).map (fun j => Call.updateConfig j observed none)
            ++ [Call.updateConfig i observed (some e)]) ∧
      (syncConfigHandler key r).2.world = controllerWorld observed r.controllers (i + 1) w1) := by
  have hsync := syncConfigHandler_target key ns name r hkey hname hne
  simp only [hget, hdiff, if_false] at hsync
  have hok : (∀ o ∈ controllerResults observed r.controllers w1, o = none) →
      (syncConfigHandler key r).1 = none ∧
      newCalls r (syncConfigHandler key r).2 =
        Call.listerGet name (.ok observed) ::
          (List.range r.controllers.length).map (fun j => Call.updateConfig j observed none) ∧
      (syncConfigHandler key r).2.world =
        controllerWorld observed r.controllers r.controllers.length w1 := by
    intro h
    have := updateControllers_ok observed r.controllers 0 w1
      (r.trace ++ [Call.listerGet name (.ok observed)]) h
    have hw := updateControllers_ok_world observed r.controllers 0 w1
      (r.trace ++ [Call.listerGet name (.ok observed)]) h
    rw [hsync]
    simp [UpdateConfig, newCalls, this.1, this.2, hw, List.range_eq_range']
  have hfail : ∀ (i : Nat) (e : GoError),
      (controllerResults observed r.controllers w1)[i]? = some (some e) →
      (∀ j : Nat, j < i → (controllerResults observed r.controllers w1)[j]? = some none) →
      (syncConfigHandler key r).1 = some e ∧
      newCalls r (syncConfigHandler key r).2 =
        Call.listerGet name (.ok observed) ::
          ((List.range i).map (fun j => Call.updateConfig j observed none)
            ++ [Call.updateConfig i observed (some e)]) ∧
      (syncConfigHandler key r).2.world = controllerWorld observed r.controllers (i + 1) w1 := by
    intro i e hi hlt
    have := updateControllers_fail observed r.controllers 0 w1
      (r.trace ++ [Call.listerGet name (.ok observed)]) i e hi hlt
    have hw := updateControllers_fail_world observed r.controllers 0 w1
      (r.trace ++ [Call.listerGet name (.ok observed)]) i e hi hlt
    rw [hsync]
    simp [UpdateConfig, newCalls, this.1, this.2, hw, List.range_eq_range']
  refine ⟨by rw [hsync]; rfl, ?_, hsync, hok, hfail⟩
  intro cfg ret hmem
  by_cases hall : ∀ o ∈ controllerResults observed r.controllers w1, o = none
  · rw [(hok hall).2.1] at hmem
    simp at hmem
  · have hex : ∃ o ∈ controllerResults observed r.controllers w1, o ≠ none := by
      push_neg at hall
      exact hall
    obtain ⟨i, e, hi, hlt⟩ := exists_first_error _ hex
    rw [(hfail i e hi hlt).2.1] at hmem
    simp at hmem

/-- Witness of C2: with the key `global`, a differing observed config and three dependents of
which the second fails. -/
theorem syncConfigHandler_drift_witness :
    (syncConfigHandler "global" rDriftBroken).2.config = cfgObserved ∧
    (syncConfigHandler "global" rDriftBroken).1 = some errBroken ∧
    newCalls rDriftBroken (syncConfigHandler "global" rDriftBroken).2 =
      Call.listerGet "global" (.ok cfgObserved) ::
        ((List.range 1).map (fun j => Call.updateConfig j cfgObserved none)
          ++ [Call.updateConfig 1 cfgObserved (some errBroken)]) ∧
    (syncConfigHandler "global" rDriftBroken).2.world = { world0 with updates := 2 } :=
  have h := syncConfigHandler_drift "global" "" "global" rDriftBroken cfgObserved world0 rfl rfl
    (by decide) rfl (by decide)
  ⟨h.1, h.2.2.2.2 1 errBroken (by decide) (by decide)⟩

/-- C3, idempotent convergence: when the name component of the key is the non-empty target
name and the lister returns an observed config whose spec equals the one in memory, whatever
its name, resource version and namespace, the handler returns nil, its only call is the lister
call, so no dependent is called and nothing is created, and the config in memory is unchanged:
the reconciler is as it was but for the lister call.  And `reconcileIsNeeded` is true exactly
when the two specs differ. -/
theorem syncConfigHandler_idempotent (key ns name : String) (r : ConfigReconciler ω)
    (observed : KarydiaConfig) (w1 : ω)
    (hkey : SplitMetaNamespaceKey key = .ok (ns, name))
    (hname : name = r.config.Name) (hne : r.config.Name ≠ "")
    (hget : r.lister.Get name r.world = (GetResult.ok observed, w1))
    (heq : observed.Spec = r.config.Spec) :
    (syncConfigHandler key r).1 = none ∧
    newCalls r (syncConfigHandler key r).2 = [Call.listerGet name (.ok observed)] ∧
    (syncConfigHandler key r).2.config = r.config ∧
    (∀ d : KarydiaConfig, reconcileIsNeeded r d = true ↔ d.Spec ≠ r.config.Spec) ∧
    (syncConfigHandler key r).2 =
      { r with world := w1, trace := r.trace ++ [Call.listerGet name (.ok observed)] } := by
  have hsync := syncConfigHandler_target key ns name r hkey hname hne
  simp only [hget, heq, if_true] at hsync
  refine ⟨by rw [hsync], by rw [hsync]; simp [newCalls], by rw [hsync], ?_, by rw [hsync]⟩
  intro d
  simp [reconcileIsNeeded]

/-- Witness of C3: the observed config has the spec in memory and another name, namespace and
resource version. -/
theorem syncConfigHandler_idempotent_witness :
    (syncConfigHandler "global" rSame).1 = none ∧
    newCalls rSame (syncConfigHandler "global" rSame).2 =
      [Call.listerGet "global" (.ok cfgSameSpec)] ∧
    (syncConfigHandler "global" rSame).2.config = rSame.config ∧
    (∀ d : KarydiaConfig, reconcileIsNeeded rSame d = true ↔ d.Spec ≠ rSame.config.Spec) ∧
    (syncConfigHandler "global" rSame).2 =
      { rSame with world := world0,
                   trace := rSame.trace ++ [Call.listerGet "global" (.ok cfgSameSpec)] } :=
  syncConfigHandler_idempotent "global" "" "global" rSame cfgSameSpec world0 rfl rfl
    (by decide) rfl rfl

/-- C4, recreate on missing: when the name component of the key is the non-empty target name
and the lister fails with a not-found error, the handler makes exactly one `Create` call, with
the config that is in memory, calls no dependent, leaves the config in memory unchanged and
returns what `Create` returned, so nil when `Create` succeeds.  The world after the handler is
the world `w2` that this `Create`, made in the world `w1` left by the lister, gives: the
reconciler is as it was but for the lister call and the `Create` call. -/
theorem syncConfigHandler_recreate (key ns name : String) (r : ConfigReconciler ω)
    (err : GoError) (w1 : ω) (cerr : Option GoError) (w2 : ω)
    (hkey : SplitMetaNamespaceKey key = .ok (ns, name))
    (hname : name = r.config.Name) (hne : r.config.Name ≠ "")
    (hget : r.lister.Get name r.world = (GetResult.error err, w1))
    (hnf : errors.IsNotFound err = true)
    (hcreate : r.clientset.Create r.config w1 = (cerr, w2)) :
    (syncConfigHandler key r).1 = cerr ∧
    newCalls r (syncConfigHandler key r).2 =
      [Call.listerGet name (.error err), Call.create r.config cerr] ∧
    (syncConfigHandler key r).2.config = r.config ∧
    (syncConfigHandler key r).2.world = w2 ∧
    (syncConfigHandler key r).2 =
      { r with world := w2,
               trace := r.trace ++
                 [Call.listerGet name (.error err), Call.create r.config cerr] } := by
  have hsync := syncConfigHandler_target key ns name r hkey hname hne
  simp only [hget, hnf, if_true, createConfig, hcreate] at hsync
  exact ⟨by rw [hsync], by rw [hsync]; simp [newCalls], by rw [hsync], by rw [hsync],
    by rw [hsync]; simp⟩

/-- Witness of C4: target name `global`, key `global`, the store answers not-found. -/
theorem syncConfigHandler_recreate_witness :
    (syncConfigHandler "global" rMissing).1 = none ∧
    newCalls rMissing (syncConfigHandler "global" rMissing).2 =
      [Call.listerGet "global" (.error errNotFound), Call.create rMissing.config none] ∧
    (syncConfigHandler "global" rMissing).2.config = rMissing.config ∧
    (syncConfigHandler "global" rMissing).2.world = { world0 with created := [cfgMemory] } ∧
    (syncConfigHandler "global" rMissing).2 =
      { rMissing with world := { world0 with created := [cfgMemory] },
                      trace := rMissing.trace ++
                        [Call.listerGet "global" (.error errNotFound),
                          Call.create rMissing.config none] } :=
  syncConfigHandler_recreate "global" "" "global" rMissing errNotFound world0 none
    { world0 with created := [cfgMemory] } rfl rfl (by decide) rfl rfl rfl

/-- C5, no-op guard: when the target name is empty, or the key has no name component equal to
the target name, the handler returns nil and leaves the reconciler as it was: no lister read,
no `Create`, no dependent call, and the config in memory unchanged. -/
theorem syncConfigHandler_noop (key : String) (r : ConfigReconciler ω)
    (h : r.config.Name = "" ∨
      ∀ ns name, SplitMetaNamespaceKey key = .ok (ns, name) → name ≠ r.config.Name) :
    syncConfigHandler key r = (none, r) ∧
    newCalls r (syncConfigHandler key r).2 = [] := by
  have hres : syncConfigHandler key r = (none, r) := by
    unfold syncConfigHandler
    cases hk : SplitMetaNamespaceKey key with
    | error e => rfl
    | ok p =>
      obtain ⟨ns, name⟩ := p
      simp only []
      rcases h with h | h
      · simp [h]
      · have := h ns name hk
        simp [this]
  refine ⟨hres, ?_⟩
  rw [hres]
  simp [newCalls]

/-- Witness of C5: target name `global`, key `other`. -/
theorem syncConfigHandler_noop_witness :
    syncConfigHandler "other" rDrift = (none, rDrift) ∧
    newCalls rDrift (syncConfigHandler "other" rDrift).2 = [] :=
  syncConfigHandler_noop "other" rDrift (Or.inr (by
    intro ns name hk
    have h2 : SplitMetaNamespaceKey "other" = .ok ("", "other") := rfl
    rw [h2] at hk
    cases hk
    decide))

/-- C6, error taxonomy of the handler: the handler returns a non-nil error exactly when the
key parses, the target name is non-empty and is the name component of the key, and (a) the
lister fails with an error that is not not-found, or (b) the lister reports not-found and
`Create` fails, or (c) the observed spec differs and some dependent fails.  In case (a) the
result is the error of the lister and the lister call is the only call made; in case (b) the
result is the error of `Create`; in case (c) it is the error of the first dependent that
fails. -/
theorem syncConfigHandler_error_taxonomy (key : String) (r : ConfigReconciler ω) :
    ((syncConfigHandler key r).1 ≠ none ↔
      ∃ ns name, SplitMetaNamespaceKey key = .ok (ns, name) ∧ r.config.Name ≠ "" ∧
        name = r.config.Name ∧
        ((∃ err, (r.lister.Get name r.world).1 = .error err ∧ errors.IsNotFound err = false) ∨
         (∃ err, (r.lister.Get name r.world).1 = .error err ∧ errors.IsNotFound err = true ∧
            (r.clientset.Create r.config (r.lister.Get name r.world).2).1 ≠ none) ∨
         (∃ observed, (r.lister.Get name r.world).1 = .ok observed ∧
            observed.Spec ≠ r.config.Spec ∧
            ∃ o ∈ controllerResults observed r.controllers (r.lister.Get name r.world).2,
              o ≠ none))) ∧
    (∀ ns name err, SplitMetaNamespaceKey key = .ok (ns, name) → r.config.Name ≠ "" →
      name = r.config.Name → (r.lister.Get name r.world).1 = .error err →
      errors.IsNotFound err = false →
      (syncConfigHandler key r).1 = some err ∧
      newCalls r (syncConfigHandler key r).2 = [Call.listerGet name (.error err)]) ∧
    (∀ ns name err cerr, SplitMetaNamespaceKey key = .ok (ns, name) → r.config.Name ≠ "" →
      name = r.config.Name → (r.lister.Get name r.world).1 = .error err →
      errors.IsNotFound err = true →
      (r.clientset.Create r.config (r.lister.Get name r.world).2).1 = some cerr →
      (syncConfigHandler key r).1 = some cerr) ∧
    (∀ ns name observed (i : Nat) (e : GoError),
      SplitMetaNamespaceKey key = .ok (ns, name) → r.config.Name ≠ "" →
      name = r.config.Name → (r.lister.Get name r.world).1 = .ok observed →
      observed.Spec ≠ r.config.Spec →
      (controllerResults observed r.controllers (r.lister.Get name r.world).2)[i]?
        = some (some e) →
      (∀ j : Nat, j < i →
        (controllerResults observed r.controllers (r.lister.Get name r.world).2)[j]?
          = some none) →
      (syncConfigHandler key r).1 = some e) := by
  refine ⟨?_, ?_, ?_, ?_⟩
  · cases hk : SplitMetaNamespaceKey key with
    | error e0 =>
      have hres : syncConfigHandler key r = (none, r) := by simp [syncConfigHandler, hk]
      simp [hres]
    | ok p =>
      obtain ⟨ns, name⟩ := p
      by_cases hne : r.config.Name = ""
      · have hres : syncConfigHandler key r = (none, r) := by simp [syncConfigHandler, hk, hne]
        simp [hres, hne]
      · by_cases hname : name = r.config.Name
        · have hsync := syncConfigHandler_target key ns name r hk hname hne
          constructor
          · intro hres
            refine ⟨ns, name, rfl, hne, hname, ?_⟩
            cases hg : (r.lister.Get name r.world).1 with
            | error err =>
              simp only [hg] at hsync
              cases hnf : errors.IsNotFound err with
              | false => exact Or.inl ⟨err, rfl, hnf⟩
              | true =>
                refine Or.inr (Or.inl ⟨err, rfl, hnf, ?_⟩)
                simp only [hnf, if_true, createConfig] at hsync
                rw [hsync] at hres
                exact hres
            | ok observed =>
              refine Or.inr (Or.inr ⟨observed, rfl, ?_⟩)
              simp only [hg] at hsync
              by_cases hs : observed.Spec = r.config.Spec
              · simp only [hs, if_true] at hsync
                rw [hsync] at hres
                exact absurd rfl hres
              · refine ⟨hs, ?_⟩
                simp only [hs, if_false, UpdateConfig] at hsync
                rw [hsync] at hres
                by_contra hall
                push_neg at hall
                exact hres ((updateControllers_none_iff _ _ _ _ _).2 hall)
          · rintro ⟨ns2, name2, hk2, -, -, hcase⟩
            cases hk2
            rcases hcase with ⟨err, hg, hnf⟩ | ⟨err, hg, hnf, hc⟩ | ⟨observed, hg, hs, hex⟩
            · simp only [hg, hnf] at hsync
              rw [hsync]
              simp
            · simp only [hg, hnf, if_true, createConfig] at hsync
              rw [hsync]
              exact hc
            · simp only [hg, hs, if_false, UpdateConfig] at hsync
              rw [hsync]
              intro hnone
              obtain ⟨o, ho, hne2⟩ := hex
              exact hne2 ((updateControllers_none_iff _ _ _ _ _).1 hnone o ho)
        · have hres : syncConfigHandler key r = (none, r) := by
            simp [syncConfigHandler, hk, hne, hname]
          simp only [hres, ne_eq, not_true_eq_false, false_iff, not_exists]
          rintro ns2 name2 ⟨hk2, -, hn2, -⟩
          cases hk2
          exact hname hn2
  · intro ns name err hk hne hname hg hnf
    have hsync := syncConfigHandler_target key ns name r hk hname hne
    simp only [hg, hnf] at hsync
    rw [hsync]
    simp [newCalls]
  · intro ns name err cerr hk hne hname hg hnf hc
    have hsync := syncConfigHandler_target key ns name r hk hname hne
    simp only [hg, hnf, if_true, createConfig] at hsync
    rw [hsync]
    exact hc
  · intro ns name observed i e hk hne hname hg hs hi hlt
    have hsync := syncConfigHandler_target key ns name r hk hname hne
    simp only [hg, hs, if_false, UpdateConfig] at hsync
    rw [hsync]
    exact (updateControllers_fail observed r.controllers 0 _ _ i e hi hlt).1

/-- Witness of C6: a lister timeout, a failing `Create` after not-found, and a failing
dependent are each returned as they are. -/
theorem syncConfigHandler_error_taxonomy_witness :
    ((syncConfigHandler "global" rListerFails).1 = some errTimeout ∧
      newCalls rListerFails (syncConfigHandler "global" rListerFails).2 =
        [Call.listerGet "global" (.error errTimeout)]) ∧
    (syncConfigHandler "global" rMissingCreateFails).1 = some errForbidden ∧
    (syncConfigHandler "global" rDriftBroken).1 = some errBroken :=
  ⟨(syncConfigHandler_error_taxonomy "global" rListerFails).2.1 "" "global" errTimeout rfl
      (by decide) rfl rfl rfl,
   (syncConfigHandler_error_taxonomy "global" rMissingCreateFails).2.2.1 "" "global" errNotFound
      errForbidden rfl (by decide) rfl rfl rfl rfl,
   (syncConfigHandler_error_taxonomy "global" rDriftBroken).2.2.2 "" "global" cfgObserved 1
      errBroken rfl (by decide) rfl rfl (by decide) (by decide) (by decide)⟩

/-- The handler only appends calls to the trace, and none of them is a queue operation. -/
theorem syncConfigHandler_calls (key : String) (r : ConfigReconciler ω) :
    (syncConfigHandler key r).2.trace = r.trace ++ newCalls r (syncConfigHandler key r).2 ∧
    ∀ x ∈ newCalls r (syncConfigHandler key r).2, x.isQueueOp = false := by
  have key_fact : ∃ calls : List Call, (syncConfigHandler key r).2.trace = r.trace ++ calls ∧
      ∀ x ∈ calls, x.isQueueOp = false := by
    cases hk : SplitMetaNamespaceKey key with
    | error e0 =>
      exact ⟨[], by simp [syncConfigHandler, hk]⟩
    | ok p =>
      obtain ⟨ns, name⟩ := p
      by_cases hne : r.config.Name = ""
      · exact ⟨[], by simp [syncConfigHandler, hk, hne]⟩
      · by_cases hname : name = r.config.Name
        · have hsync := syncConfigHandler_target key ns name r hk hname hne
          cases hg : (r.lister.Get name r.world).1 with
          | error err =>
            simp only [hg] at hsync
            cases hnf : errors.IsNotFound err with
            | false =>
              simp only [hnf] at hsync
              refine ⟨[Call.listerGet name (.error err)], by rw [hsync]; simp, ?_⟩
              intro x hx
              simp at hx
              subst hx
              rfl
            | true =>
              simp only [hnf, if_true, createConfig] at hsync
              refine ⟨[Call.listerGet name (.error err), Call.create r.config
                (r.clientset.Create r.config (r.lister.Get name r.world).2).1],
                by rw [hsync]; simp, ?_⟩
              intro x hx
              simp at hx
              rcases hx with rfl | rfl <;> rfl
          | ok observed =>
            simp only [hg] at hsync
            by_cases hs : observed.Spec = r.config.Spec
            · simp only [hs, if_true] at hsync
              refine ⟨[Call.listerGet name (.ok observed)], by rw [hsync], ?_⟩
              intro x hx
              simp at hx
              subst hx
              rfl
            · simp only [hs, if_false, UpdateConfig] at hsync
              obtain ⟨calls, h1, h2, -⟩ := updateControllers_trace observed r.controllers 0
                (r.lister.Get name r.world).2 (r.trace ++ [Call.listerGet name (.ok observed)])
              refine ⟨Call.listerGet name (.ok observed) :: calls, ?_, ?_⟩
              · rw [hsync]
                simp only []
                rw [h1]
                simp
              · intro x hx
                simp at hx
                rcases hx with rfl | hx
                · rfl
                · obtain ⟨j, ret, rfl⟩ := h2 x hx
                  rfl
        · exact ⟨[], by simp [syncConfigHandler, hk, hne, hname]⟩
  obtain ⟨calls, h1, h2⟩ := key_fact
  have h3 : newCalls r (syncConfigHandler key r).2 = calls := by
    simp [newCalls, h1]
  rw [h3]
  exact ⟨h1, h2⟩

/-! ## The worker step -/

/-- The handler leaves the work queue of the reconciler as it is. -/
theorem syncConfigHandler_workqueue (key : String) (r : ConfigReconciler ω) :
    (syncConfigHandler key r).2.workqueue = r.workqueue := by
  cases hk : SplitMetaNamespaceKey key with
  | error e0 => simp [syncConfigHandler, hk]
  | ok p =>
    obtain ⟨ns, name⟩ := p
    by_cases hne : r.config.Name = ""
    · simp [syncConfigHandler, hk, hne]
    · by_cases hname : name = r.config.Name
      · have hsync := syncConfigHandler_target key ns name r hk hname hne
        rw [hsync]
        cases hg : (r.lister.Get name r.world).1 with
        | error err =>
          cases hnf : errors.IsNotFound err <;> simp [hnf, createConfig]
        | ok observed =>
          by_cases hs : observed.Spec = r.config.Spec <;> simp [hs, UpdateConfig]
      · simp [syncConfigHandler, hk, hne, hname]

/-- C7, per-item worker discipline.  The step starts with `Get` on the queue.  When `Get`
reports shutdown, `processNextConfigWorkItem` returns false and that `Get` is its only call.
Otherwise it returns true and `Done` on the item is its last call; before it, when the item is
not a string, the only call is `Forget` on the item, with no handler run; when the item is a
string, the calls of the handler, none of them a queue operation, are followed by one `Forget`
on the item if the handler returned nil and by one `AddRateLimited` on the key if the handler
returned an error.  So the queue operations of the step are `Get`, then `Forget` or
`AddRateLimited`, then `Done`, and the world after the step is the one that the methods
`Forget` or `AddRateLimited` and then `Done` of the queue of the reconciler give. -/
theorem processNextConfigWorkItem_discipline (r : ConfigReconciler ω) :
    queueGet r =
      ((r.workqueue.Get r.world).1,
        { r with world := (r.workqueue.Get r.world).2,
                 trace := r.trace ++ [Call.queueGet (r.workqueue.Get r.world).1.1
                   (r.workqueue.Get r.world).1.2] }) ∧
    ((queueGet r).1.2 = true →
      processNextConfigWorkItem r = (false, (queueGet r).2) ∧
      newCalls r (processNextConfigWorkItem r).2 = [Call.queueGet (queueGet r).1.1 true]) ∧
    ((queueGet r).1.2 = false →
      (processNextConfigWorkItem r).1 = true ∧
      (∀ tag, (queueGet r).1.1 = Item.other tag →
        newCalls r (processNextConfigWorkItem r).2 =
          [Call.queueGet (.other tag) false, Call.queueForget (.other tag),
            Call.queueDone (.other tag)] ∧
        (processNextConfigWorkItem r).2 =
          { (queueGet r).2 with
            world := r.workqueue.Done (.other tag)
              (r.workqueue.Forget (.other tag) (queueGet r).2.world),
            trace := (queueGet r).2.trace ++
              [Call.queueForget (.other tag), Call.queueDone (.other tag)] }) ∧
      (∀ key, (queueGet r).1.1 = Item.str key →
        (∀ x ∈ newCalls (queueGet r).2 (syncConfigHandler key (queueGet r).2).2,
          x.isQueueOp = false) ∧
        ((syncConfigHandler key (queueGet r).2).1 = none →
          newCalls r (processNextConfigWorkItem r).2 =
            Call.queueGet (.str key) false ::
              (newCalls (queueGet r).2 (syncConfigHandler key (queueGet r).2).2
                ++ [Call.queueForget (.str key), Call.queueDone (.str key)]) ∧
          (newCalls r (processNextConfigWorkItem r).2).filter Call.isQueueOp =
            [Call.queueGet (.str key) false, Call.queueForget (.str key),
              Call.queueDone (.str key)] ∧
          (processNextConfigWorkItem r).2 =
            { (syncConfigHandler key (queueGet r).2).2 with
              world := r.workqueue.Done (.str key)
                (r.workqueue.Forget (.str key) (syncConfigHandler key (queueGet r).2).2.world),
              trace := (syncConfigHandler key (queueGet r).2).2.trace ++
                [Call.queueForget (.str key), Call.queueDone (.str key)] }) ∧
        (∀ e, (syncConfigHandler key (queueGet r).2).1 = some e →
          newCalls r (processNextConfigWorkItem r).2 =
            Call.queueGet (.str key) false ::
              (newCalls (queueGet r).2 (syncConfigHandler key (queueGet r).2).2
                ++ [Call.queueAddRateLimited (.str key), Call.queueDone (.str key)]) ∧
          (newCalls r (processNextConfigWorkItem r).2).filter Call.isQueueOp =
            [Call.queueGet (.str key) false, Call.queueAddRateLimited (.str key),
              Call.queueDone (.str key)] ∧
          (processNextConfigWorkItem r).2 =
            { (syncConfigHandler key (queueGet r).2).2 with
              world := r.workqueue.Done (.str key)
                (r.workqueue.AddRateLimited (.str key)
                  (syncConfigHandler key (queueGet r).2).2.world),
              trace := (syncConfigHandler key (queueGet r).2).2.trace ++
                [Call.queueAddRateLimited (.str key), Call.queueDone (.str key)] }))) := by
  refine ⟨rfl, ?_, ?_⟩
  · intro hs
    have hstep : processNextConfigWorkItem r = (false, (queueGet r).2) := by
      simp [processNextConfigWorkItem, hs]
    refine ⟨hstep, ?_⟩
    rw [hstep]
    simp only [queueGet] at hs
    simp [queueGet, newCalls, hs]
  · intro hs
    have hstep : processNextConfigWorkItem r =
        (true, (processItem (queueGet r).1.1 (queueGet r).2).2) := by
      simp only [processNextConfigWorkItem, hs]
      rcases hp : processItem (queueGet r).1.1 (queueGet r).2 with ⟨_ | e, r2⟩ <;> simp
    have htr : (queueGet r).2.trace = r.trace ++ [Call.queueGet (queueGet r).1.1 false] := by
      simp only [queueGet] at hs
      simp [queueGet, hs]
    have hq : (queueGet r).2.workqueue = r.workqueue := rfl
    refine ⟨by rw [hstep], ?_, ?_⟩
    · intro tag hobj
      rw [hstep, hobj]
      rw [hobj] at htr
      refine ⟨?_, ?_⟩
      · simp [processItem, queueDone, queueForget, newCalls, htr]
      · simp [processItem, queueDone, queueForget, hq]
    · intro key hobj
      rw [hobj] at htr
      have hcalls := syncConfigHandler_calls key (queueGet r).2
      have hwq : (syncConfigHandler key (queueGet r).2).2.workqueue = r.workqueue := by
        rw [syncConfigHandler_workqueue, hq]
      have hfilter : (newCalls (queueGet r).2
          (syncConfigHandler key (queueGet r).2).2).filter Call.isQueueOp = [] := by
        rw [List.filter_eq_nil_iff]
        intro x hx
        simp [hcalls.2 x hx]
      refine ⟨hcalls.2, ?_, ?_⟩
      · intro hnone
        have hcore : newCalls r (processNextConfigWorkItem r).2 =
            Call.queueGet (.str key) false ::
              (newCalls (queueGet r).2 (syncConfigHandler key (queueGet r).2).2
                ++ [Call.queueForget (.str key), Call.queueDone (.str key)]) := by
          rw [hstep, hobj]
          rcases hh : syncConfigHandler key (queueGet r).2 with ⟨res, r2⟩
          rw [hh] at hcalls hnone
          simp only [] at hnone
          subst hnone
          have ht := hcalls.1
          simp only [] at ht ⊢
          generalize newCalls _ r2 = calls at ht ⊢
          simp [processItem, hh, queueDone, queueForget, newCalls, ht, htr]
        refine ⟨hcore, ?_, ?_⟩
        · rw [hcore]
          simp [List.filter_cons, List.filter_append, hfilter, Call.isQueueOp]
        · rw [hstep, hobj]
          rcases hh : syncConfigHandler key (queueGet r).2 with ⟨res, r2⟩
          rw [hh] at hnone hwq
          simp only [] at hnone hwq
          subst hnone
          simp [processItem, hh, queueDone, queueForget, hwq]
      · intro e herr
        have hcore : newCalls r (processNextConfigWorkItem r).2 =
            Call.queueGet (.str key) false ::
              (newCalls (queueGet r).2 (syncConfigHandler key (queueGet r).2).2
                ++ [Call.queueAddRateLimited (.str key), Call.queueDone (.str key)]) := by
          rw [hstep, hobj]
          rcases hh : syncConfigHandler key (queueGet r).2 with ⟨res, r2⟩
          rw [hh] at hcalls herr
          simp only [] at herr
          subst herr
          have ht := hcalls.1
          simp only [] at ht ⊢
          generalize newCalls _ r2 = calls at ht ⊢
          simp [processItem, hh, queueDone, queueAddRateLimited, newCalls, ht, htr]
        refine ⟨hcore, ?_, ?_⟩
        · rw [hcore]
          simp [List.filter_cons, List.filter_append, hfilter, Call.isQueueOp]
        · rw [hstep, hobj]
          rcases hh : syncConfigHandler key (queueGet r).2 with ⟨res, r2⟩
          rw [hh] at herr hwq
          simp only [] at herr hwq
          subst herr
          simp [processItem, hh, queueDone, queueAddRateLimited, hwq]

/-- Witness of C7: a shutdown, an item that is not a string, a key whose handler run fails and
a key whose handler run succeeds, with what the queue has been told at the end of each. -/
theorem processNextConfigWorkItem_discipline_witness :
    (processNextConfigWorkItem rShutdown = (false, (queueGet rShutdown).2) ∧
      newCalls rShutdown (processNextConfigWorkItem rShutdown).2 =
        [Call.queueGet (.str "global") true]) ∧
    ((processNextConfigWorkItem rBadItem).1 = true ∧
      newCalls rBadItem (processNextConfigWorkItem rBadItem).2 =
        [Call.queueGet (.other 42) false, Call.queueForget (.other 42),
          Call.queueDone (.other 42)] ∧
      (processNextConfigWorkItem rBadItem).2.world =
        { world0 with gets := 1, forgotten := [.other 42], done := [.other 42] }) ∧
    (newCalls rDriftBroken (processNextConfigWorkItem rDriftBroken).2 =
      [Call.queueGet (.str "global") false, Call.listerGet "global" (.ok cfgObserved),
        Call.updateConfig 0 cfgObserved none, Call.updateConfig 1 cfgObserved (some errBroken),
        Call.queueAddRateLimited (.str "global"), Call.queueDone (.str "global")] ∧
      (newCalls rDriftBroken (processNextConfigWorkItem rDriftBroken).2).filter Call.isQueueOp =
        [Call.queueGet (.str "global") false, Call.queueAddRateLimited (.str "global"),
          Call.queueDone (.str "global")] ∧
      (processNextConfigWorkItem rDriftBroken).2.world =
        { world0 with gets := 1, updates := 2, rateLimited := [.str "global"],
                      done := [.str "global"] }) ∧
    (newCalls rSame (processNextConfigWorkItem rSame).2 =
      [Call.queueGet (.str "global") false, Call.listerGet "global" (.ok cfgSameSpec),
        Call.queueForget (.str "global"), Call.queueDone (.str "global")] ∧
      (newCalls rSame (processNextConfigWorkItem rSame).2).filter Call.isQueueOp =
        [Call.queueGet (.str "global") false, Call.queueForget (.str "global"),
          Call.queueDone (.str "global")] ∧
      (processNextConfigWorkItem rSame).2.world =
        { world0 with gets := 1, forgotten := [.str "global"], done := [.str "global"] }) :=
  have hBad := ((processNextConfigWorkItem_discipline rBadItem).2.2 rfl).2.1 42 rfl
  have hBroken := ((((processNextConfigWorkItem_discipline rDriftBroken).2.2 rfl).2.2
    "global" rfl).2.2 errBroken (by decide))
  have hSame := ((((processNextConfigWorkItem_discipline rSame).2.2 rfl).2.2
    "global" rfl).2.1 (by decide))
  ⟨(processNextConfigWorkItem_discipline rShutdown).2.1 rfl,
   ⟨((processNextConfigWorkItem_discipline rBadItem).2.2 rfl).1, hBad.1,
    congrArg ConfigReconciler.world hBad.2⟩,
   ⟨hBroken.1, hBroken.2.1, congrArg ConfigReconciler.world hBroken.2.2⟩,
   ⟨hSame.1, hSame.2.1, congrArg ConfigReconciler.world hSame.2.2⟩⟩

/-! ## The informer event handlers -/

/-- C8, change notifier adapter.  An update notification whose new and old objects have the
same resource version makes no queue operation.  An update notification with different
resource versions makes exactly one call, `Add` of the key derived from the new object, which
is `namespace/name`, or `name` when the namespace is empty.  A delete notification whose key
can be derived makes exactly one call, `Add` of that key.  When the key cannot be derived,
nothing is added. -/
theorem eventHandlers_enqueue (r : ConfigReconciler ω) :
    (∀ oldConfig newConfig : KarydiaConfig,
      newConfig.ResourceVersion = oldConfig.ResourceVersion →
      UpdateFunc (.karydiaConfig oldConfig) (.karydiaConfig newConfig) r = some r) ∧
    (∀ oldConfig newConfig : KarydiaConfig,
      newConfig.ResourceVersion ≠ oldConfig.ResourceVersion →
      ∃ r2 key, UpdateFunc (.karydiaConfig oldConfig) (.karydiaConfig newConfig) r = some r2 ∧
        MetaNamespaceKeyFunc (.karydiaConfig newConfig) = .ok key ∧
        key = (if newConfig.Namespace.length > 0
          then newConfig.Namespace ++ "/" ++ newConfig.Name else newConfig.Name) ∧
        newCalls r r2 = [Call.queueAdd (.str key)] ∧
        r2.world = r.workqueue.Add (.str key) r.world ∧ r2.config = r.config) ∧
    (∀ obj key, MetaNamespaceKeyFunc obj = .ok key →
      newCalls r (DeleteFunc obj r) = [Call.queueAdd (.str key)] ∧
      (DeleteFunc obj r).world = r.workqueue.Add (.str key) r.world ∧
      (DeleteFunc obj r).config = r.config) ∧
    (∀ obj err, MetaNamespaceKeyFunc obj = .error err →
      DeleteFunc obj r = r ∧ enqueueConfig obj r = r) := by
  refine ⟨?_, ?_, ?_, ?_⟩
  · intro oldConfig newConfig h
    simp [UpdateFunc, h]
  · intro oldConfig newConfig h
    by_cases hns : newConfig.Namespace.length > 0
    · refine ⟨_, newConfig.Namespace ++ "/" ++ newConfig.Name, by simp [UpdateFunc, h]; rfl, ?_⟩
      simp [MetaNamespaceKeyFunc, enqueueConfig, hns, newCalls]
    · refine ⟨_, newConfig.Name, by simp [UpdateFunc, h]; rfl, ?_⟩
      simp [MetaNamespaceKeyFunc, enqueueConfig, hns, newCalls]
  · intro obj key h
    simp [DeleteFunc, enqueueConfig, h, newCalls]
  · intro obj err h
    simp [DeleteFunc, enqueueConfig, h]

/-- Witness of C8: a resync, a changed object, the deletion of an object and the deletion
reported through a tombstone. -/
theorem eventHandlers_enqueue_witness :
    UpdateFunc (.karydiaConfig cfgMemory) (.karydiaConfig cfgMemory) rDrift = some rDrift ∧
    (∃ r2 key, UpdateFunc (.karydiaConfig cfgMemory) (.karydiaConfig cfgSameSpec) rDrift = some r2 ∧
      MetaNamespaceKeyFunc (.karydiaConfig cfgSameSpec) = .ok key ∧
      key = (if cfgSameSpec.Namespace.length > 0
        then cfgSameSpec.Namespace ++ "/" ++ cfgSameSpec.Name else cfgSameSpec.Name) ∧
      newCalls rDrift r2 = [Call.queueAdd (.str key)] ∧
      r2.world = rDrift.workqueue.Add (.str key) rDrift.world ∧ r2.config = rDrift.config) ∧
    (newCalls rDrift (DeleteFunc (.karydiaConfig cfgObserved) rDrift)
        = [Call.queueAdd (.str "global")] ∧
      (DeleteFunc (.karydiaConfig cfgObserved) rDrift).world
        = rDrift.workqueue.Add (.str "global") rDrift.world ∧
      (DeleteFunc (.karydiaConfig cfgObserved) rDrift).config = rDrift.config) ∧
    (DeleteFunc (.deletedFinalStateUnknown "global" cfgObserved) rDrift = rDrift ∧
      enqueueConfig (.deletedFinalStateUnknown "global" cfgObserved) rDrift = rDrift) :=
  ⟨(eventHandlers_enqueue rDrift).1 cfgMemory cfgMemory rfl,
   (eventHandlers_enqueue rDrift).2.1 cfgMemory cfgSameSpec (by decide),
   (eventHandlers_enqueue rDrift).2.2.1 (.karydiaConfig cfgObserved) "global" rfl,
   (eventHandlers_enqueue rDrift).2.2.2 (.deletedFinalStateUnknown "global" cfgObserved)
     ⟨"object has no meta: object does not implement the Object interfaces", false⟩ rfl⟩

/-! ## Retry after a failed propagation -/

/-- After a handler run that found a differing spec, whether or not a dependent failed, a
second run for the same key in which the lister returns the same observed config returns nil
and calls no dependent: the observed config is already the one in memory. -/
theorem syncConfigHandler_second_cycle (key ns name : String) (r : ConfigReconciler ω)
    (observed : KarydiaConfig)
    (hkey : SplitMetaNamespaceKey key = .ok (ns, name))
    (hname : name = r.config.Name) (hne : r.config.Name ≠ "")
    (hget : (r.lister.Get name r.world).1 = GetResult.ok observed)
    (hdiff : observed.Spec ≠ r.config.Spec)
    (hsame : observed.Name = r.config.Name)
    (hget2 : ((syncConfigHandler key r).2.lister.Get name (syncConfigHandler key r).2.world).1
      = GetResult.ok observed) :
    (syncConfigHandler key (syncConfigHandler key r).2).1 = none ∧
    newCalls (syncConfigHandler key r).2 (syncConfigHandler key (syncConfigHandler key r).2).2
      = [Call.listerGet name (.ok observed)] := by
  have hsync := syncConfigHandler_target key ns name r hkey hname hne
  simp only [hget, hdiff, if_false] at hsync
  have hcfg : (syncConfigHandler key r).2.config = observed := by rw [hsync]; rfl
  have hname2 : name = (syncConfigHandler key r).2.config.Name := by
    rw [hcfg, hsame, hname]
  have hne2 : (syncConfigHandler key r).2.config.Name ≠ "" := by
    rw [hcfg, hsame]
    exact hne
  have hsync2 := syncConfigHandler_target key ns name (syncConfigHandler key r).2 hkey hname2 hne2
  simp only [hget2, hcfg, if_true] at hsync2
  rw [hsync2]
  simp [newCalls]

/-- C9 fails on the code.  Two dependents, the spec in the store differs from the one in
memory, and the first dependent fails on its first call.  The first cycle calls dependent 0,
which fails, and the worker re-queues the key.  In the retry the lister returns the same
observed config and both dependents would succeed, yet the handler returns nil after the
lister call alone: no dependent is called, dependent 1 never receives the config, and the
worker forgets the key. -/
theorem retry_after_failed_propagation_calls_no_dependent :
    (syncConfigHandler "global" rDrift).1 = some errNotReady ∧
    newCalls rDrift (syncConfigHandler "global" rDrift).2 =
      [Call.listerGet "global" (.ok cfgObserved),
        Call.updateConfig 0 cfgObserved (some errNotReady)] ∧
    newCalls rDrift (processNextConfigWorkItem rDrift).2 =
      [Call.queueGet (.str "global") false, Call.listerGet "global" (.ok cfgObserved),
        Call.updateConfig 0 cfgObserved (some errNotReady),
        Call.queueAddRateLimited (.str "global"), Call.queueDone (.str "global")] ∧
    (rDriftRetry.lister.Get "global" rDriftRetry.world).1 = .ok cfgObserved ∧
    (∀ o ∈ controllerResults cfgObserved rDriftRetry.controllers rDriftRetry.world, o = none) ∧
    (syncConfigHandler "global" rDriftRetry).1 = none ∧
    newCalls rDriftRetry (syncConfigHandler "global" rDriftRetry).2 =
      [Call.listerGet "global" (.ok cfgObserved)] ∧
    newCalls rDriftRetry (processNextConfigWorkItem rDriftRetry).2 =
      [Call.queueGet (.str "global") false, Call.listerGet "global" (.ok cfgObserved),
        Call.queueForget (.str "global"), Call.queueDone (.str "global")] := by
  refine ⟨by decide, by decide, by decide, by decide, by decide, by decide, by decide, by decide⟩

/-! ## The config in memory on error -/

/-- C10 fails on the code: with a differing spec in the store and a first dependent that
fails, the handler returns the error of the dependent and the config in memory is the observed
one, not the one before the call; and `UpdateConfig` on the observed config returns the error
and has replaced the config in memory as well. -/
theorem failed_propagation_replaces_config :
    (syncConfigHandler "global" rDrift).1 = some errNotReady ∧
    (syncConfigHandler "global" rDrift).2.config = cfgObserved ∧
    (syncConfigHandler "global" rDrift).2.config ≠ rDrift.config ∧
    (UpdateConfig cfgObserved rDrift).1 = some errNotReady ∧
    (UpdateConfig cfgObserved rDrift).2.config ≠ rDrift.config := by
  refine ⟨by decide, by decide, by decide, by decide, by decide⟩

/-- C10 as amended: when the handler returns a non-nil error and no dependent was called
during the run, so that the error is the error of the lister or of `Create`, the config in
memory after the call is the config in memory before the call. -/
theorem syncConfigHandler_error_keeps_config (key : String) (r : ConfigReconciler ω)
    (e : GoError) (herr : (syncConfigHandler key r).1 = some e)
    (hno : ∀ i c ret, Call.updateConfig i c ret ∉ newCalls r (syncConfigHandler key r).2) :
    (syncConfigHandler key r).2.config = r.config := by
  cases hk : SplitMetaNamespaceKey key with
  | error e0 => simp [syncConfigHandler, hk]
  | ok p =>
    obtain ⟨ns, name⟩ := p
    by_cases hne : r.config.Name = ""
    · simp [syncConfigHandler, hk, hne]
    · by_cases hname : name = r.config.Name
      · have hsync := syncConfigHandler_target key ns name r hk hname hne
        cases hg : (r.lister.Get name r.world).1 with
        | error err =>
          simp only [hg] at hsync
          cases hnf : errors.IsNotFound err with
          | false =>
            simp only [hnf] at hsync
            rw [hsync]
            rfl
          | true =>
            simp only [hnf, if_true, createConfig] at hsync
            rw [hsync]
        | ok observed =>
          simp only [hg] at hsync
          by_cases hs : observed.Spec = r.config.Spec
          · simp only [hs, if_true] at hsync
            rw [hsync]
          · exfalso
            simp only [hs, if_false, UpdateConfig] at hsync
            obtain ⟨calls, h1, -, h3⟩ := updateControllers_trace observed r.controllers 0
              (r.lister.Get name r.world).2 (r.trace ++ [Call.listerGet name (.ok observed)])
            rw [hsync] at herr hno
            obtain ⟨j, hj⟩ := h3 e herr
            apply hno j observed (some e)
            simp only [newCalls]
            rw [h1]
            simp [hj]
      · simp [syncConfigHandler, hk, hne, hname]

/-- Witness of amended C10: the lister times out, the handler returns the timeout and the
config in memory is kept. -/
theorem syncConfigHandler_error_keeps_config_witness :
    (syncConfigHandler "global" rListerFails).1 = some errTimeout ∧
    (syncConfigHandler "global" rListerFails).2.config = rListerFails.config :=
  ⟨by decide,
   syncConfigHandler_error_keeps_config "global" rListerFails errTimeout (by decide) (by
     intro i c ret h
     have h2 : newCalls rListerFails (syncConfigHandler "global" rListerFails).2 =
         [Call.listerGet "global" (.error errTimeout)] := by decide
     rw [h2] at h
     simp at h)⟩

end Karydia
